import Mathlib

/-!
# Verification of the create-astro-gcal event-detection engine

Shallow embedding of the event-detection code of the repository
(`astro/aspects.py`, `astro/retrograde.py`, `astro/moon_features.py`,
`astro/eclipses.py`, `astro/almanac.py`, `astro/year_progress.py`) and
proofs of the specification claims about it.

Conventions:
* Python floats are modelled as exact rationals (`ℚ`), so the algorithms
  are analysed in exact arithmetic.
* Instants are modelled as rational day numbers (one unit = one day, as in
  the Julian-date arithmetic of `bisection_search`).
* Python's `%` with a positive modulus is `pymod` (floor-style remainder).
* `datetime` values are rational day counts; the Gregorian calendar is
  `dateToDay`.

The core rational operations are restored to their definitional
reducibility so that concrete runs of the embedded algorithms can be
evaluated by `decide`.
-/

attribute [local semireducible] Rat.add Rat.sub Rat.mul Rat.inv Rat.ofScientific

/-- Python's `%` operator for a positive modulus: `x - y * ⌊x / y⌋`,
the floor-style remainder used by `(d - target + 180) % 360`. -/
def pymod (x y : ℚ) : ℚ := x - y * (Rat.floor (x / y) : ℚ)

/-- The wraparound normalisation `(x + 180) % 360 - 180` used throughout
`astro/aspects.py` (maps a degree difference into `[-180, 180)`). -/
def normDeg (x : ℚ) : ℚ := pymod (x + 180) 360 - 180

/-- The Crossing Detector of `get_aspects` (aspects.py lines 184-190):
from the coarse sample array it computes
`val = (diff_arr - tgt + 180) % 360 - 180`, then keeps every index `i`
with `val[i] * val[i+1] <= 0` (sign change) and
`|val[i] - val[i+1]| < 180` (wraparound rejection). -/
def crossingIndices (vals : List ℚ) (target : ℚ) : List ℕ :=
  (List.range (vals.length - 1)).filter fun i =>
    decide (normDeg (vals.getD i 0 - target) * normDeg (vals.getD (i + 1) 0 - target) ≤ 0 ∧
      |normDeg (vals.getD i 0 - target) - normDeg (vals.getD (i + 1) 0 - target)| < 180)

/-- C1: the Crossing Detector declares a crossing at adjacent-sample index
`idx` (yielding the bracket `[t_idx, t_idx+1]`) iff the normalized
deviations satisfy `d_idx * d_idx+1 ≤ 0` and `|d_idx - d_idx+1| < 180`;
consequently a sample sequence whose normalized deviation stays near
`±180°` (absolute value at least 170) yields zero declared crossings. -/
theorem C1_crossing_detector (vals : List ℚ) (target : ℚ) :
    (∀ idx : ℕ, idx ∈ crossingIndices vals target ↔
      idx + 1 < vals.length ∧
      normDeg (vals.getD idx 0 - target) * normDeg (vals.getD (idx + 1) 0 - target) ≤ 0 ∧
      |normDeg (vals.getD idx 0 - target) - normDeg (vals.getD (idx + 1) 0 - target)| < 180)
    ∧ ((∀ i, i < vals.length → 170 ≤ |normDeg (vals.getD i 0 - target)|) →
      crossingIndices vals target = []) := by
  constructor
  · intro idx
    simp only [crossingIndices, List.mem_filter, List.mem_range, decide_eq_true_eq]
    constructor
    · rintro ⟨h1, h2⟩
      exact ⟨by omega, h2⟩
    · rintro ⟨h1, h2⟩
      exact ⟨by omega, h2⟩
  · intro h
    apply List.filter_eq_nil_iff.2
    intro i hi
    rw [List.mem_range] at hi
    simp only [decide_eq_true_eq, not_and, not_lt]
    intro hprod
    set a := normDeg (vals.getD i 0 - target) with ha
    set b := normDeg (vals.getD (i + 1) 0 - target) with hb
    have hA : 170 ≤ |a| := h i (by omega)
    have hB : 170 ≤ |b| := h (i + 1) (by omega)
    rcases abs_cases a with ⟨ea, sa⟩ | ⟨ea, sa⟩ <;>
      rcases abs_cases b with ⟨eb, sb⟩ | ⟨eb, sb⟩ <;>
      [skip; skip; skip; skip] <;>
      rw [ea] at hA <;> rw [eb] at hB
    · nlinarith [hprod]
    · nlinarith [le_abs_self (a - b)]
    · nlinarith [neg_abs_le (a - b)]
    · nlinarith [hprod]

/-- Witness for C1: a concrete sequence oscillating near ±180° with no
true crossing of target 0 produces zero detections. -/
theorem C1_crossing_detector_witness :
    crossingIndices [(175 : ℚ), -175, 175] 0 = [] :=
  (C1_crossing_detector [(175 : ℚ), -175, 175] 0).2 (by decide)

/-- The loop of `bisection_search` (aspects.py lines 126-143), with the
iteration count as explicit fuel.  Each pass first checks the bracket
width against `tol_days`, then evaluates the midpoint with the precise
function and replaces the end sharing the midpoint's sign; when the fuel
runs out the midpoint of the final bracket is returned (line 144). -/
def bisectLoop (f : ℚ → ℚ) (tol : ℚ) : ℕ → ℚ → ℚ → ℚ → ℚ
  | 0, jdMin, jdMax, _ => (jdMin + jdMax) / 2
  | n + 1, jdMin, jdMax, vMin =>
    if jdMax - jdMin < tol then (jdMin + jdMax) / 2
    else if f ((jdMin + jdMax) / 2) = 0 then (jdMin + jdMax) / 2
    else if vMin * f ((jdMin + jdMax) / 2) < 0 then
      bisectLoop f tol n jdMin ((jdMin + jdMax) / 2) vMin
    else bisectLoop f tol n ((jdMin + jdMax) / 2) jdMax (f ((jdMin + jdMax) / 2))

/-- One iteration of the `bisection_search` loop body, viewed as a step
function: `Sum.inl t` means the loop returns `t` this iteration (width
below tolerance, or exact zero at the midpoint), `Sum.inr` carries the
bracket and cached `v_min` passed to the next iteration. -/
def bisectStep (f : ℚ → ℚ) (tol : ℚ) (jdMin jdMax vMin : ℚ) : Sum ℚ (ℚ × ℚ × ℚ) :=
  if jdMax - jdMin < tol then Sum.inl ((jdMin + jdMax) / 2)
  else if f ((jdMin + jdMax) / 2) = 0 then Sum.inl ((jdMin + jdMax) / 2)
  else if vMin * f ((jdMin + jdMax) / 2) < 0 then Sum.inr (jdMin, (jdMin + jdMax) / 2, vMin)
  else Sum.inr ((jdMin + jdMax) / 2, jdMax, f ((jdMin + jdMax) / 2))

/-- The function `bisection_search(f, t_start, t_end, tol_days)` of aspects.py lines
120-144: 20 iterations of interval bisection starting from
`v_min = f(t_start)`. -/
def bisection_search (f : ℚ → ℚ) (tStart tEnd tol : ℚ) : ℚ :=
  bisectLoop f tol 20 tStart tEnd (f tStart)

/-- The bisection loop never leaves the initial bracket. -/
theorem bisectLoop_mem (f : ℚ → ℚ) (tol : ℚ) :
    ∀ (n : ℕ) (a b v : ℚ), a ≤ b →
      a ≤ bisectLoop f tol n a b v ∧ bisectLoop f tol n a b v ≤ b := by
  intro n
  induction n with
  | zero => intro a b v h; dsimp [bisectLoop]; constructor <;> linarith
  | succ n ih =>
    intro a b v h
    rw [bisectLoop]
    split_ifs with h1 h2 h3
    · constructor <;> linarith
    · constructor <;> linarith
    · have hrec := ih a ((a + b) / 2) v (by linarith)
      constructor <;> linarith [hrec.1, hrec.2]
    · have hrec := ih ((a + b) / 2) b (f ((a + b) / 2)) (by linarith)
      constructor <;> linarith [hrec.1, hrec.2]

/-- C2 (amended): `bisection_search` returns a point of the bracket
`[lo, hi]`; every iteration that continues exactly halves the bracket
(hence the width is monotonically non-increasing); the loop is the fuelled
iteration of `bisectStep` for at most 20 steps; and it returns the current
midpoint as soon as the bracket width falls below the time tolerance.
No bound on `|f(t*)|` is guaranteed (the tolerance is on time, not on the
function value). -/
theorem C2_bisection_refiner (f : ℚ → ℚ) (lo hi tol : ℚ) (h : lo ≤ hi) :
    (lo ≤ bisection_search f lo hi tol ∧ bisection_search f lo hi tol ≤ hi)
    ∧ (∀ a b v a2 b2 v2, bisectStep f tol a b v = Sum.inr (a2, b2, v2) →
        b2 - a2 = (b - a) / 2 ∧ (0 ≤ b - a → b2 - a2 ≤ b - a))
    ∧ (∀ n a b v, bisectLoop f tol (n + 1) a b v =
        match bisectStep f tol a b v with
        | Sum.inl t => t
        | Sum.inr (a2, b2, v2) => bisectLoop f tol n a2 b2 v2)
    ∧ (∀ n a b v, b - a < tol → bisectLoop f tol (n + 1) a b v = (a + b) / 2) := by
  refine ⟨bisectLoop_mem f tol 20 lo hi (f lo) h, ?_, ?_, ?_⟩
  · intro a b v a2 b2 v2 hstep
    rw [bisectStep] at hstep
    split_ifs at hstep with h1 h2 h3
    · rcases Prod.mk.injEq .. ▸ (Sum.inr.injEq .. ▸ hstep) with ⟨rfl, h4⟩
      rcases Prod.mk.injEq .. ▸ h4 with ⟨rfl, rfl⟩
      constructor
      · ring
      · intro hw; linarith
    · rcases Prod.mk.injEq .. ▸ (Sum.inr.injEq .. ▸ hstep) with ⟨rfl, h4⟩
      rcases Prod.mk.injEq .. ▸ h4 with ⟨rfl, rfl⟩
      constructor
      · ring
      · intro hw; linarith
  · intro n a b v
    rw [bisectLoop, bisectStep]
    split_ifs <;> rfl
  · intro n a b v hw
    rw [bisectLoop, if_pos hw]

/-- Witness for C2: the amended range property at a concrete input. -/
theorem C2_bisection_refiner_witness :
    (0 : ℚ) ≤ bisection_search (fun _ => 1) 0 1 (1 / 1000000)
    ∧ bisection_search (fun _ => (1 : ℚ)) 0 1 (1 / 1000000) ≤ 1 :=
  (C2_bisection_refiner (fun _ => 1) 0 1 (1 / 1000000) (by norm_num)).1

/-- A steep crossing clamped into the `[-180, 180)` band: a genuine sign
change on `[0, 1]` whose root `1/3` has a very large slope around it. -/
def cexF (t : ℚ) : ℚ :=
  if 3000000 * t - 1000000 < -170 then -170
  else if 170 < 3000000 * t - 1000000 then 170
  else 3000000 * t - 1000000

/-- Counterexample to C2 as stated: `cexF` has a genuine sign change on
`[0, 1]`, yet the value of the function at the returned point is not
within the configured tolerance `ε = 10⁻⁶` (it is about `0.48`): the
refiner guarantees a time tolerance, not a value tolerance. -/
theorem C2_bisection_refiner_counterexample :
    cexF 0 * cexF 1 < 0
    ∧ ¬ |cexF (bisection_search cexF 0 1 (1 / 1000000))| < 1 / 1000000 := by
  decide

/-- The orb-entry search of `get_aspects` (aspects.py lines 208-222): probe
30 days back; if the orb function changes sign on `[t-30, t]` bisect there,
else probe 1 day back, else keep `t_entry = t_exact`. -/
def findEntry (g : ℚ → ℚ) (tExact : ℚ) : ℚ :=
  if g (tExact - 30) * g tExact < 0 then bisection_search g (tExact - 30) tExact (1 / 1000000)
  else if g (tExact - 1) * g tExact < 0 then
    bisection_search g (tExact - 1) tExact (1 / 1000000)
  else tExact

/-- The orb-exit search of `get_aspects` (aspects.py lines 224-234):
probe 30 days forward, else 1 day forward, else keep `t_exit = t_exact`. -/
def findExit (g : ℚ → ℚ) (tExact : ℚ) : ℚ :=
  if g tExact * g (tExact + 30) < 0 then bisection_search g tExact (tExact + 30) (1 / 1000000)
  else if g tExact * g (tExact + 1) < 0 then
    bisection_search g tExact (tExact + 1) (1 / 1000000)
  else tExact

/-- The emitted aspect duration (aspects.py lines 239-240, 248):
`duration_min = (dt_end - dt_start) in minutes; if duration_min < 1:
duration_min = 1; int(duration_min)`. -/
def aspectDurationMinutes (tEntry tExit : ℚ) : ℤ :=
  if (tExit - tEntry) * 1440 < 1 then 1 else Rat.floor ((tExit - tEntry) * 1440)

/-- The inner backward refinement of `EclipseCalculator._find_duration`
(eclipses.py lines 156-162): 10 bisection steps, keeping `low` outside the
limit, returning `high`. -/
def eclRefineBack (sep : ℚ → ℚ) (limit : ℚ) : ℕ → ℚ → ℚ → ℚ
  | 0, _, high => high
  | k + 1, low, high =>
    if limit < sep (low + (high - low) / 2) then
      eclRefineBack sep limit k (low + (high - low) / 2) high
    else eclRefineBack sep limit k low (low + (high - low) / 2)

/-- The backward probe loop of `_find_duration` (eclipses.py lines
151-167): at most 35 probes of 10 minutes each; if the separation never
exceeds the limit at a probe, `t_start` falls back to `t_peak`. -/
def eclSearchBack (sep : ℚ → ℚ) (limit tPeak : ℚ) : ℕ → ℚ → ℚ
  | 0, _ => tPeak
  | n + 1, tSearch =>
    if limit < sep (tSearch - 10 / 1440) then
      eclRefineBack sep limit 10 (tSearch - 10 / 1440) tSearch
    else eclSearchBack sep limit tPeak n (tSearch - 10 / 1440)

/-- The inner forward refinement of `_find_duration` (eclipses.py lines
176-182): 10 bisection steps, keeping `low` inside the limit, returning
`low`. -/
def eclRefineFwd (sep : ℚ → ℚ) (limit : ℚ) : ℕ → ℚ → ℚ → ℚ
  | 0, low, _ => low
  | k + 1, low, high =>
    if sep (low + (high - low) / 2) < limit then
      eclRefineFwd sep limit k (low + (high - low) / 2) high
    else eclRefineFwd sep limit k low (low + (high - low) / 2)

/-- The forward probe loop of `_find_duration` (eclipses.py lines
169-187): at most 35 probes of 10 minutes each; fallback `t_end = t_peak`. -/
def eclSearchFwd (sep : ℚ → ℚ) (limit tPeak : ℚ) : ℕ → ℚ → ℚ
  | 0, _ => tPeak
  | n + 1, tSearch =>
    if limit < sep (tSearch + 10 / 1440) then
      eclRefineFwd sep limit 10 tSearch (tSearch + 10 / 1440)
    else eclSearchFwd sep limit tPeak n (tSearch + 10 / 1440)

/-- The helper `EclipseCalculator._find_duration(ts, t_peak, sep_func, limit)`
(eclipses.py lines 146-188), returning `(t_start, t_end)`. -/
def eclFindDuration (sep : ℚ → ℚ) (limit tPeak : ℚ) : ℚ × ℚ :=
  (eclSearchBack sep limit tPeak 35 tPeak, eclSearchFwd sep limit tPeak 35 tPeak)

/-- If the separation stays at or below the limit on the whole capped
backward range (35 probes × 10 minutes = 350 minutes), the backward search
exhausts its probes and falls back to `t_peak`. -/
theorem eclSearchBack_all_below (sep : ℚ → ℚ) (limit tPeak : ℚ)
    (h : ∀ t, tPeak - 350 / 1440 ≤ t → t ≤ tPeak → ¬ limit < sep t) :
    ∀ (n : ℕ) (tSearch : ℚ), tPeak - 350 / 1440 + (n : ℚ) * (10 / 1440) ≤ tSearch →
      tSearch ≤ tPeak → eclSearchBack sep limit tPeak n tSearch = tPeak := by
  intro n
  induction n with
  | zero => intro t _ _; rfl
  | succ n ih =>
    intro t h1 h2
    have hc : ((n : ℚ) + 1) * (10 / 1440) = (n : ℚ) * (10 / 1440) + 10 / 1440 := by ring
    rw [Nat.cast_succ, hc] at h1
    have hprobe : ¬ limit < sep (t - 10 / 1440) := by
      refine h _ ?_ ?_
      · nlinarith [Nat.cast_nonneg (α := ℚ) n]
      · linarith
    rw [eclSearchBack, if_neg hprobe]
    exact ih (t - 10 / 1440) (by linarith) (by linarith)

/-- Symmetric statement for the forward search. -/
theorem eclSearchFwd_all_below (sep : ℚ → ℚ) (limit tPeak : ℚ)
    (h : ∀ t, tPeak ≤ t → t ≤ tPeak + 350 / 1440 → ¬ limit < sep t) :
    ∀ (n : ℕ) (tSearch : ℚ), tSearch ≤ tPeak + 350 / 1440 - (n : ℚ) * (10 / 1440) →
      tPeak ≤ tSearch → eclSearchFwd sep limit tPeak n tSearch = tPeak := by
  intro n
  induction n with
  | zero => intro t _ _; rfl
  | succ n ih =>
    intro t h1 h2
    have hc : ((n : ℚ) + 1) * (10 / 1440) = (n : ℚ) * (10 / 1440) + 10 / 1440 := by ring
    rw [Nat.cast_succ, hc] at h1
    have hprobe : ¬ limit < sep (t + 10 / 1440) := by
      refine h _ ?_ ?_
      · linarith
      · nlinarith [Nat.cast_nonneg (α := ℚ) n]
    rw [eclSearchFwd, if_neg hprobe]
    exact ih (t + 10 / 1440) (by linarith) (by linarith)

/-- C3 (amended): the orb/duration window search is bounded by a fixed
maximum distance (30 days for aspects; 350 minutes of probes for
eclipses), and when no entry (exit) sign change of the orb function is
bracketed within that distance the entry (exit) time falls back to the
exact crossing `t₀` — but the emitted degenerate event carries the clamped
minimum duration of 1 minute, not a zero duration. -/
theorem C3_window_search_fallback (g sep : ℚ → ℚ) (t0 limit tPeak : ℚ) :
    (t0 - 30 ≤ findEntry g t0 ∧ findEntry g t0 ≤ t0)
    ∧ (t0 ≤ findExit g t0 ∧ findExit g t0 ≤ t0 + 30)
    ∧ ((∀ t, t0 - 30 ≤ t → t ≤ t0 → 0 < g t * g t0) → findEntry g t0 = t0)
    ∧ ((∀ t, t0 ≤ t → t ≤ t0 + 30 → 0 < g t0 * g t) → findExit g t0 = t0)
    ∧ ((∀ t, tPeak - 350 / 1440 ≤ t → t ≤ tPeak + 350 / 1440 → ¬ limit < sep t) →
        eclFindDuration sep limit tPeak = (tPeak, tPeak))
    ∧ aspectDurationMinutes t0 t0 = 1 := by
  refine ⟨?_, ?_, ?_, ?_, ?_, ?_⟩
  · rw [findEntry]
    split_ifs with h1 h2
    · have := bisectLoop_mem g (1 / 1000000) 20 (t0 - 30) t0 (g (t0 - 30)) (by linarith)
      rw [bisection_search]
      exact ⟨this.1, this.2⟩
    · have := bisectLoop_mem g (1 / 1000000) 20 (t0 - 1) t0 (g (t0 - 1)) (by linarith)
      rw [bisection_search]
      constructor <;> linarith [this.1, this.2]
    · constructor <;> linarith
  · rw [findExit]
    split_ifs with h1 h2
    · have := bisectLoop_mem g (1 / 1000000) 20 t0 (t0 + 30) (g t0) (by linarith)
      rw [bisection_search]
      exact ⟨this.1, this.2⟩
    · have := bisectLoop_mem g (1 / 1000000) 20 t0 (t0 + 1) (g t0) (by linarith)
      rw [bisection_search]
      constructor <;> linarith [this.1, this.2]
    · constructor <;> linarith
  · intro h
    have h30 := h (t0 - 30) (by linarith) (by linarith)
    have h1d := h (t0 - 1) (by linarith) (by linarith)
    rw [findEntry, if_neg (by linarith), if_neg (by linarith)]
  · intro h
    have h30 := h (t0 + 30) (by linarith) (by linarith)
    have h1d := h (t0 + 1) (by linarith) (by linarith)
    rw [findExit, if_neg (by linarith), if_neg (by linarith)]
  · intro h
    have hb := eclSearchBack_all_below sep limit tPeak
      (fun t ht1 ht2 => h t ht1 (by linarith)) 35 tPeak (by norm_num) le_rfl
    have hf := eclSearchFwd_all_below sep limit tPeak
      (fun t ht1 ht2 => h t (by linarith) ht2) 35 tPeak (by norm_num) le_rfl
    rw [eclFindDuration, hb, hf]
  · rw [aspectDurationMinutes, if_pos (by norm_num)]

/-- Witness for C3: the fallback at a concrete orb function that never
re-enters the band, and a concrete separation that never leaves it. -/
theorem C3_window_search_fallback_witness :
    findEntry (fun _ => (-1 : ℚ)) 0 = 0 ∧ findExit (fun _ => (-1 : ℚ)) 0 = 0
    ∧ eclFindDuration (fun _ => (0 : ℚ)) 1 0 = (0, 0)
    ∧ aspectDurationMinutes 0 0 = 1 := by
  obtain ⟨_, _, h3, h4, h5, h6⟩ :=
    C3_window_search_fallback (fun _ => (-1 : ℚ)) (fun _ => (0 : ℚ)) 0 1 0
  exact ⟨h3 (fun t _ _ => by norm_num), h4 (fun t _ _ => by norm_num),
    h5 (fun t _ _ => by norm_num), h6⟩

/-- Counterexample to C3 as stated: with an orb function that brackets no
entry or exit sign change, both window ends fall back to `t₀ = 0`, yet
the emitted event's duration is the clamped 1 minute, not zero. -/
theorem C3_window_search_fallback_counterexample :
    findEntry (fun _ => (-1 : ℚ)) 0 = 0 ∧ findExit (fun _ => (-1 : ℚ)) 0 = 0
    ∧ aspectDurationMinutes (findEntry (fun _ => (-1 : ℚ)) 0)
        (findExit (fun _ => (-1 : ℚ)) 0) ≠ 0 := by
  decide

/-- The event dictionaries emitted by the calculators: `type`, `summary`,
`start_time` (a rational instant), `duration_minutes`, `participants`. -/
structure Event where
  etype : String
  summary : String
  start_time : ℚ
  duration_minutes : ℤ
  participants : List String
deriving DecidableEq

/-- A station record of `get_retrograde_full` (retrograde.py lines
241-245): `{'time': ..., 'type': 'R'|'D', 'lon': ...}`; `stype = true`
stands for `'R'`. -/
structure Station where
  time : ℚ
  stype : Bool
  lon : ℚ
deriving DecidableEq

/-- The per-candidate tail of `get_aspects` (aspects.py lines 197-251):
refine the bracket with the precise difference function `f`, search the
orb window with `g`, and emit `(start_time, duration_minutes)` where
`start_time` is the entry instant.  No filtering against the queried
interval happens here. -/
def processCandidate (f g : ℚ → ℚ) (tS tE : ℚ) : ℚ × ℤ :=
  let tExact := bisection_search f tS tE (1 / 1000000)
  let tEntry := findEntry g tExact
  let tExit := findExit g tExact
  (tEntry, aspectDurationMinutes tEntry tExit)

/-- The station-event emission of `get_retrograde_full` (retrograde.py
lines 252-271): a station is emitted only when
`year_start <= dt.year <= year_end`, always with `duration_minutes = 0`.
`yearOf` abstracts `utc_datetime().year`. -/
def stationEvents (pName : String) (ys ye : ℤ) (yearOf : ℚ → ℤ)
    (stations : List Station) : List Event :=
  stations.filterMap fun st =>
    if ys ≤ yearOf st.time ∧ yearOf st.time ≤ ye then
      some { etype := "retrograde",
             summary := if st.stype then pName ++ " Retrograde" else pName ++ " Direct",
             start_time := st.time,
             duration_minutes := 0,
             participants := [] }
    else none

/-- Every emitted duration is at least the clamped 1 minute. -/
theorem aspectDurationMinutes_pos (tEntry tExit : ℚ) :
    1 ≤ aspectDurationMinutes tEntry tExit := by
  rw [aspectDurationMinutes]
  split_ifs with h
  · exact le_refl 1
  · exact Rat.le_floor.2 (by push_cast; linarith [not_lt.1 h])

/-- C4 (amended): aspect events always carry a nonnegative (indeed ≥ 1
minute) duration, and retrograde station events are filtered so that the
year of `start_time` lies within `[year_start, year_end]` and their
duration is 0 — but the aspect pipeline applies no such filter to its
`start_time` (see the counterexample, where the entry time precedes the
queried interval). -/
theorem C4_event_invariants (f g : ℚ → ℚ) (tS tE : ℚ) (pName : String) (ys ye : ℤ)
    (yearOf : ℚ → ℤ) (stations : List Station) :
    (0 ≤ (processCandidate f g tS tE).2)
    ∧ (∀ e ∈ stationEvents pName ys ye yearOf stations,
        ys ≤ yearOf e.start_time ∧ yearOf e.start_time ≤ ye ∧ e.duration_minutes = 0) := by
  constructor
  · have := aspectDurationMinutes_pos (findEntry g (bisection_search f tS tE (1 / 1000000)))
      (findExit g (bisection_search f tS tE (1 / 1000000)))
    simp only [processCandidate]
    omega
  · intro e he
    rw [stationEvents, List.mem_filterMap] at he
    obtain ⟨st, _, hst⟩ := he
    by_cases hr : ys ≤ yearOf st.time ∧ yearOf st.time ≤ ye
    · rw [if_pos hr] at hst
      cases hst
      exact ⟨hr.1, hr.2, rfl⟩
    · rw [if_neg hr] at hst
      cases hst

/-- Witness for C4: the invariants at a concrete station list and
candidate. -/
theorem C4_event_invariants_witness :
    (0 : ℤ) ≤ (processCandidate (fun t => t - 1 / 2) (fun t => |t - 1 / 2| - 10) 0 1).2
    ∧ ((2024 : ℤ) ≤ 2024 ∧ (2024 : ℤ) ≤ 2024 ∧ (0 : ℤ) = 0) := by
  have h := C4_event_invariants (fun t => t - 1 / 2) (fun t => |t - 1 / 2| - 10) 0 1
    "Mercury" 2024 2024 (fun _ => 2024) [⟨5, true, 100⟩]
  refine ⟨h.1, ?_⟩
  have hm : (⟨"retrograde", "Mercury Retrograde", 5, 0, []⟩ : Event)
      ∈ stationEvents "Mercury" 2024 2024 (fun _ => 2024) [⟨5, true, 100⟩] := by decide
  exact h.2 _ hm

/-- Counterexample to C4 as stated: a crossing bracketed on the first
coarse day `[0, 1]` of the queried interval (time measured in days from
January 1 of `year_start`) whose orb-entry search walks back past the
interval start: the emitted `start_time` is about `-9.5`, before the
queried interval. -/
theorem C4_event_invariants_counterexample :
    (0 : ℚ) ≤ 0 ∧ (1 : ℚ) ≤ 1
    ∧ (processCandidate (fun t => t - 1 / 2) (fun t => |t - 1 / 2| - 10) 0 1).1 < 0 := by
  decide

/-- Modelled from the spec: the Deduplicator component (§4.6) is not
present under `src/` — only duplicate-detection tests exist
(`tests/test_dupes_general.py`, `tests/test_moon_features_dupe.py`).
Following the spec's words: walk the `start_time`-sorted list and, for
consecutive events sharing `(kind, participants)`, suppress the second
when the `start_time` difference is below the per-kind minimum-separation
threshold.  `prev` is the last surviving event. -/
def dedupGo (minSep : String → ℚ) : Option Event → List Event → List Event
  | _, [] => []
  | none, e :: rest => e :: dedupGo minSep (some e) rest
  | some prev, e :: rest =>
    if e.etype = prev.etype ∧ e.participants = prev.participants ∧
        e.start_time - prev.start_time < minSep e.etype then
      dedupGo minSep (some prev) rest
    else e :: dedupGo minSep (some e) rest

/-- Modelled from the spec: the Deduplicator (§4.6) applied to a list
already sorted by `start_time`. -/
def deduplicate (minSep : String → ℚ) (events : List Event) : List Event :=
  dedupGo minSep none events

/-- The relation holding between a surviving event and the next one the
Deduplicator keeps after it: the next one is not suppressed relative to
it. -/
def dedupKeep (minSep : String → ℚ) (a b : Event) : Prop :=
  ¬ (b.etype = a.etype ∧ b.participants = a.participants ∧
      b.start_time - a.start_time < minSep b.etype)

theorem dedupGo_sublist (minSep : String → ℚ) :
    ∀ (l : List Event) (op : Option Event), (dedupGo minSep op l).Sublist l := by
  intro l
  induction l with
  | nil => intro op; cases op <;> exact List.Sublist.refl []
  | cons e rest ih =>
    intro op
    cases op with
    | none => exact (ih (some e)).cons₂ e
    | some prev =>
      rw [dedupGo]
      split_ifs
      · exact (ih (some prev)).cons e
      · exact (ih (some e)).cons₂ e

theorem dedupGo_chain (minSep : String → ℚ) :
    ∀ (l : List Event) (prev : Event),
      List.Chain (dedupKeep minSep) prev (dedupGo minSep (some prev) l) := by
  intro l
  induction l with
  | nil => intro prev; exact List.Chain.nil
  | cons e rest ih =>
    intro prev
    rw [dedupGo]
    split_ifs with hsup
    · exact ih prev
    · exact List.Chain.cons hsup (ih e)

theorem dedupGo_of_chain (minSep : String → ℚ) :
    ∀ (l : List Event) (prev : Event),
      List.Chain (dedupKeep minSep) prev l → dedupGo minSep (some prev) l = l := by
  intro l
  induction l with
  | nil => intro prev _; rfl
  | cons e rest ih =>
    intro prev hch
    rcases hch with _ | ⟨hR, hch⟩
    rw [dedupGo, if_neg hR]
    rw [ih e hch]

/-- C5: the Deduplicator is a pure post-filter: on a `start_time`-sorted
event list, its output is a sublist of the input (so the relative order of
the surviving events is unchanged), and it is idempotent. -/
theorem C5_deduplicator (minSep : String → ℚ) (l : List Event)
    (hs : l.Sorted fun a b => a.start_time ≤ b.start_time) :
    (deduplicate minSep l).Sublist l
    ∧ deduplicate minSep (deduplicate minSep l) = deduplicate minSep l := by
  refine ⟨dedupGo_sublist minSep l none, ?_⟩
  cases l with
  | nil => rfl
  | cons e rest =>
    show dedupGo minSep none (e :: dedupGo minSep (some e) rest)
      = dedupGo minSep none (e :: rest)
    rw [dedupGo, dedupGo]
    rw [dedupGo_of_chain minSep _ e (dedupGo_chain minSep rest e)]

/-- Witness for C5 at a concrete sorted list with a near-duplicate pair:
the second event is suppressed, the output is a sublist, and a second run
changes nothing. -/
theorem C5_deduplicator_witness :
    (deduplicate (fun _ => 1) [⟨"aspect", "x", 0, 0, []⟩, ⟨"aspect", "x", 1 / 2, 0, []⟩]).Sublist
        [⟨"aspect", "x", 0, 0, []⟩, ⟨"aspect", "x", 1 / 2, 0, []⟩]
    ∧ deduplicate (fun _ => 1)
        (deduplicate (fun _ => 1) [⟨"aspect", "x", 0, 0, []⟩, ⟨"aspect", "x", 1 / 2, 0, []⟩])
      = deduplicate (fun _ => 1) [⟨"aspect", "x", 0, 0, []⟩, ⟨"aspect", "x", 1 / 2, 0, []⟩] :=
  C5_deduplicator (fun _ => 1) [⟨"aspect", "x", 0, 0, []⟩, ⟨"aspect", "x", 1 / 2, 0, []⟩]
    (by simp [List.sorted_cons])

/-- The node event built by `get_moon_features` (moon_features.py lines
45-65) from a `find_discrete` output `(t, y)`: `y` is the new state of
"latitude > 0", so `y = true` means the Moon crossed to the North
(ascending node). -/
def moonNodeEvent (t : ℚ) (yi : Bool) : Event :=
  { etype := "moon_feature",
    summary := if yi then "Moon North Node" else "Moon South Node",
    start_time := t,
    duration_minutes := 0,
    participants := [] }

/-- The standstill event built by `get_moon_features` (moon_features.py
lines 111-135) from a `find_discrete` output `(t, y)`: `y` is the new
state of "declination increasing", so `y = true` means the declination
just changed from decreasing to increasing — a minimum, labelled
"Moon Furthest South"; `y = false` a maximum, "Moon Furthest North". -/
def moonStandstillEvent (t : ℚ) (yi : Bool) : Event :=
  { etype := "moon_feature",
    summary := if yi then "Moon Furthest South" else "Moon Furthest North",
    start_time := t,
    duration_minutes := 0,
    participants := [] }

/-- The function `get_moon_features` (moon_features.py lines 7-137), taking the two
`find_discrete` outputs (node transitions and declination-rate
transitions) as inputs: node events are appended first, then the
declination extremes. -/
def get_moon_features (nodes exts : List (ℚ × Bool)) : List Event :=
  nodes.map (fun p => moonNodeEvent p.1 p.2)
    ++ exts.map (fun p => moonStandstillEvent p.1 p.2)

/-- C6: every detected declination-rate sign change `(t, y)` is emitted
with the inverse of the naive rate-sign label — a transition to increasing
declination (`y = true`) is labelled the southern extreme "Moon Furthest
South", a transition to decreasing the northern "Moon Furthest North";
and every ecliptic-latitude sign change is emitted with a transition to
positive latitude labelled the ascending "Moon North Node" and to
negative the descending "Moon South Node". -/
theorem C6_moon_feature_labels (nodes exts : List (ℚ × Bool)) (t : ℚ) (y : Bool) :
    ((t, y) ∈ exts →
      moonStandstillEvent t y ∈ get_moon_features nodes exts
      ∧ (moonStandstillEvent t y).summary
          = (if y then "Moon Furthest South" else "Moon Furthest North")
      ∧ (moonStandstillEvent t y).start_time = t)
    ∧ ((t, y) ∈ nodes →
      moonNodeEvent t y ∈ get_moon_features nodes exts
      ∧ (moonNodeEvent t y).summary = (if y then "Moon North Node" else "Moon South Node")
      ∧ (moonNodeEvent t y).start_time = t) := by
  constructor
  · intro h
    refine ⟨List.mem_append_right _ ?_, rfl, rfl⟩
    exact List.mem_map.2 ⟨(t, y), h, rfl⟩
  · intro h
    refine ⟨List.mem_append_left _ ?_, rfl, rfl⟩
    exact List.mem_map.2 ⟨(t, y), h, rfl⟩

/-- Witness for C6 at a concrete run: a rate change to increasing is
emitted as "Moon Furthest South". -/
theorem C6_moon_feature_labels_witness :
    moonStandstillEvent 5 true ∈ get_moon_features [(1, false)] [(5, true)]
    ∧ (moonStandstillEvent 5 true).summary = "Moon Furthest South" := by
  obtain ⟨h1, h2, _⟩ :=
    (C6_moon_feature_labels [(1, false)] [(5, true)] 5 true).1 (by decide)
  exact ⟨h1, h2⟩

/-- Python's `str.lower()` on the requested body names. -/
def strLower (s : String) : String := String.mk (s.data.map Char.toLower)

/-- The `name_map` of `get_aspects` (aspects.py lines 63-75). -/
def aspects_name_map : List (String × String) :=
  [("mercury", "mercury"), ("venus", "venus"), ("earth", "earth"), ("mars", "mars"),
   ("jupiter", "jupiter barycenter"), ("saturn", "saturn barycenter"),
   ("uranus", "uranus barycenter"), ("neptune", "neptune barycenter"),
   ("pluto", "pluto barycenter"), ("moon", "moon"), ("sun", "sun")]

/-- The `name_map` of `AlmanacCalculator.get_almanac_events` (almanac.py
lines 30-42); same entries as the aspects table. -/
def almanac_name_map : List (String × String) :=
  [("mercury", "mercury"), ("venus", "venus"), ("earth", "earth"), ("mars", "mars"),
   ("jupiter", "jupiter barycenter"), ("saturn", "saturn barycenter"),
   ("uranus", "uranus barycenter"), ("neptune", "neptune barycenter"),
   ("pluto", "pluto barycenter"), ("moon", "moon"), ("sun", "sun")]

/-- The `name_map` of `get_retrograde_full` (retrograde.py lines 177-186):
eight planets, no sun/moon/earth. -/
def retro_name_map : List (String × String) :=
  [("mercury", "mercury"), ("venus", "venus"), ("mars", "mars"),
   ("jupiter", "jupiter barycenter"), ("saturn", "saturn barycenter"),
   ("uranus", "uranus barycenter"), ("neptune", "neptune barycenter"),
   ("pluto", "pluto barycenter")]

/-- Python dictionary lookup `m[k]` / `k in m` on a literal table. -/
def lookupName (m : List (String × String)) (k : String) : Option String :=
  (m.find? fun kv => kv.1 == k).map Prod.snd

/-- The name-resolution loop of `get_aspects` (aspects.py lines 77-87):
a mapped name is kept unless it is the observer (self-observation
filter); an UNMAPPED name is appended verbatim (`target_names.append(p)`),
not skipped. -/
def resolveTargets (center : String) : List String → List String
  | [] => []
  | p :: rest =>
    match lookupName aspects_name_map (strLower p) with
    | some mapped =>
      if strLower center = "sun" ∧ mapped = "sun" then resolveTargets center rest
      else if strLower center = "earth" ∧ mapped = "earth" then resolveTargets center rest
      else mapped :: resolveTargets center rest
    | none => p :: resolveTargets center rest

/-- The dict comprehension `planet_objs = ...` building `eph[name]` objects (aspects.py
line 89): the dict comprehension raises `KeyError` at the first name the
ephemeris does not know; `ephKeys` models the provider's key set. -/
def buildPlanetObjs (ephKeys names : List String) : Except String (List String) :=
  match names.find? (fun n => !(ephKeys.contains n)) with
  | some n => Except.error n
  | none => Except.ok names

/-- Python dict keys: first-occurrence order with duplicates dropped
(`names = list(planet_objs.keys())`, aspects.py line 90). -/
def dedupKeysAux : List String → List String → List String
  | [], _ => []
  | x :: rest, seen =>
    if seen.contains x then dedupKeysAux rest seen
    else x :: dedupKeysAux rest (x :: seen)

def dedupKeys (l : List String) : List String := dedupKeysAux l []

/-- Aspects.py lines 77-90: resolve the requested names, build the
ephemeris objects (which can fail), and take the distinct keys. -/
def aspectNames (ephKeys : List String) (center : String) (planets : List String) :
    Except String (List String) :=
  (buildPlanetObjs ephKeys (resolveTargets center planets)).map dedupKeys

/-- Modelled from the spec: the ephemeris/position provider is an external
collaborator (spec §1 and §6, the wrapped astronomy library and its data
file `de421.bsp`); its body-identifier key set is modelled as exactly the
identifiers the name tables map to. -/
def modelEphKeys : List String :=
  ["mercury", "venus", "earth", "mars", "jupiter barycenter", "saturn barycenter",
   "uranus barycenter", "neptune barycenter", "pluto barycenter", "moon", "sun"]

/-- The body loop of `AlmanacCalculator.get_almanac_events` (almanac.py
lines 44-52): `lookup_name = name_map.get(clean_name, clean_name)`, then
`eph[lookup_name]` inside `try/except KeyError: continue`. -/
def almanacBodies (ephKeys : List String) : List String → List String
  | [] => []
  | b :: rest =>
    if ephKeys.contains ((lookupName almanac_name_map (strLower b)).getD (strLower b)) then
      ((lookupName almanac_name_map (strLower b)).getD (strLower b))
        :: almanacBodies ephKeys rest
    else almanacBodies ephKeys rest

/-- The body loop of `get_retrograde_full` (retrograde.py lines 188-191):
`if clean_name not in name_map: continue`. -/
def retroBodies : List String → List String
  | [] => []
  | p :: rest =>
    match lookupName retro_name_map (strLower p) with
    | some m => m :: retroBodies rest
    | none => retroBodies rest

theorem buildPlanetObjs_error (ephKeys names : List String) (bad : String)
    (hmem : bad ∈ names) (hkey : bad ∉ ephKeys) :
    ∃ n, buildPlanetObjs ephKeys names = Except.error n := by
  cases hf : names.find? (fun n => !(ephKeys.contains n)) with
  | none =>
    exfalso
    have h2 := List.find?_eq_none.1 hf bad hmem
    simp at h2
    exact hkey h2
  | some n =>
    refine ⟨n, ?_⟩
    rw [buildPlanetObjs, hf]

/-- C7 (amended): the almanac and retrograde calculators skip a body name
missing from their lookup tables (the almanac warning is commented out)
and continue with the remaining bodies; but the aspects calculator passes
an unmapped name through verbatim to the ephemeris lookup, which raises,
aborting that category's computation — there an unresolvable name IS
fatal. -/
theorem C7_unresolvable_bodies (ephKeys pre post : List String) (bad center : String)
    (hasp : lookupName aspects_name_map (strLower bad) = none)
    (halm : lookupName almanac_name_map (strLower bad) = none)
    (hret : lookupName retro_name_map (strLower bad) = none)
    (heph1 : strLower bad ∉ ephKeys)
    (heph2 : bad ∉ ephKeys) :
    almanacBodies ephKeys (pre ++ bad :: post) = almanacBodies ephKeys (pre ++ post)
    ∧ retroBodies (pre ++ bad :: post) = retroBodies (pre ++ post)
    ∧ bad ∈ resolveTargets center (pre ++ bad :: post)
    ∧ ∃ n, buildPlanetObjs ephKeys (resolveTargets center (pre ++ bad :: post))
        = Except.error n := by
  have hmem : ∀ pre' : List String, bad ∈ resolveTargets center (pre' ++ bad :: post) := by
    intro pre'
    induction pre' with
    | nil =>
      rw [List.nil_append, resolveTargets, hasp]
      exact List.mem_cons_self bad _
    | cons p rest ih =>
      cases h : lookupName aspects_name_map (strLower p) with
      | some mapped =>
        rw [List.cons_append, resolveTargets]
        simp only [h]
        split_ifs
        · exact ih
        · exact ih
        · exact List.mem_cons_of_mem mapped ih
      | none =>
        rw [List.cons_append, resolveTargets]
        simp only [h]
        exact List.mem_cons_of_mem p ih
  refine ⟨?_, ?_, hmem pre, buildPlanetObjs_error ephKeys _ bad (hmem pre) heph2⟩
  · induction pre with
    | nil =>
      rw [List.nil_append, List.nil_append, almanacBodies, halm]
      rw [Option.getD_none, if_neg (by simpa using heph1)]
    | cons p rest ih =>
      rw [List.cons_append, List.cons_append, almanacBodies, almanacBodies]
      split_ifs
      · rw [ih]
      · exact ih
  · induction pre with
    | nil =>
      rw [List.nil_append, List.nil_append, retroBodies, hret]
    | cons p rest ih =>
      cases h : lookupName retro_name_map (strLower p) with
      | some m =>
        rw [List.cons_append, List.cons_append, retroBodies, retroBodies]
        simp only [h]
        rw [ih]
      | none =>
        rw [List.cons_append, List.cons_append, retroBodies, retroBodies]
        simp only [h]
        exact ih

/-- Witness for C7: with the requested list `["sun", "Vulcan", "moon"]`,
the almanac and retrograde loops behave exactly as on `["sun", "moon"]`. -/
theorem C7_unresolvable_bodies_witness :
    almanacBodies modelEphKeys ["sun", "Vulcan", "moon"]
      = almanacBodies modelEphKeys ["sun", "moon"]
    ∧ retroBodies ["sun", "Vulcan", "moon"] = retroBodies ["sun", "moon"] := by
  have h := C7_unresolvable_bodies modelEphKeys ["sun"] ["moon"] "Vulcan" "earth"
    (by decide) (by decide) (by decide) (by decide) (by decide)
  exact ⟨h.1, h.2.1⟩

deriving instance DecidableEq for Except

/-- Counterexample to C7 as stated: in `get_aspects`, the unknown body
"Vulcan" is not skipped — it reaches the ephemeris lookup and the whole
aspects computation fails with a `KeyError`. -/
theorem C7_unresolvable_bodies_counterexample :
    aspectNames modelEphKeys "earth" ["sun", "Vulcan"] = Except.error "Vulcan" := by
  decide

/-- The pairwise loop skeleton of `get_aspects` (aspects.py lines
164-167): all index pairs `i < j` over the resolved body names. -/
def pairList (names : List String) : List (String × String) :=
  (List.range names.length).flatMap fun i =>
    (List.range names.length).filterMap fun j =>
      if i < j then some (names.getD i "", names.getD j "") else none

/-- The event production of `get_aspects` over the body pairs, with the
per-pair detection pipeline abstracted as `gen`. -/
def getAspectsEvents (names : List String) (gen : String → String → List Event) :
    List Event :=
  (pairList names).flatMap fun p => gen p.1 p.2

/-- C8: when the request resolves to at most one distinct body (e.g. only
"Sun" with itself), the pairwise loop of `get_aspects` runs zero
iterations and the returned event list is empty. -/
theorem C8_self_pair_exclusion (ephKeys : List String) (center : String)
    (planets : List String) (gen : String → String → List Event) (names : List String)
    (hres : aspectNames ephKeys center planets = Except.ok names)
    (hlen : names.length ≤ 1) :
    getAspectsEvents names gen = [] := by
  match names with
  | [] => rfl
  | [a] => rfl
  | a :: b :: t => simp at hlen

/-- Witness for C8: the request `["Sun", "Sun"]` geocentric resolves to
the single body `"sun"`, and even a generator emitting an event for every
pair produces no events. -/
theorem C8_self_pair_exclusion_witness :
    getAspectsEvents ["sun"] (fun a b => [⟨"aspect", a ++ b, 0, 1, [a, b]⟩]) = [] :=
  C8_self_pair_exclusion modelEphKeys "earth" ["Sun", "Sun"]
    (fun a b => [⟨"aspect", a ++ b, 0, 1, [a, b]⟩]) ["sun"] (by decide) (by decide)

/-- The Gregorian leap-year rule, used to model `datetime.date`
arithmetic. -/
def isLeap (y : ℤ) : Bool := (y % 4 == 0 && y % 100 != 0) || y % 400 == 0

def monthLengths (leap : Bool) : List ℕ :=
  [31, if leap then 29 else 28, 31, 30, 31, 30, 31, 31, 30, 31, 30, 31]

/-- The day number of the calendar date `y-m-d` (days since the epoch
0001-01-01 = day 0), modelling `datetime.datetime` values as day counts. -/
def dateToDay (y : ℤ) (m d : ℕ) : ℤ :=
  365 * (y - 1) + (y - 1) / 4 - (y - 1) / 100 + (y - 1) / 400
    + (((monthLengths (isLeap y)).take (m - 1)).sum : ℤ) + (d : ℤ) - 1

/-- An event of `generate_progress_events` (year_progress.py): the type
tag, the fraction numerator `k` (for 1/16th events) or the day index `sq`
(for square-day events), and the instant as a rational day count. -/
structure ProgressEvent where
  ptype : String
  idx : ℕ
  start_time : ℚ
deriving DecidableEq

/-- The 1/16th-interval events of `generate_progress_events`
(year_progress.py lines 14-31): for `k in range(1, 16)`, the event falls
at `start_dt + total_duration * k/16`. -/
def fractionEvents (startD endD : ℚ) : List ProgressEvent :=
  (List.range' 1 15).map fun k =>
    ⟨"year_progress_fraction", k, startD + (endD - startD) * ((k : ℚ) / 16)⟩

/-- The square-number-day loop of `generate_progress_events`
(year_progress.py lines 33-62): `while` over `n` starting at 1, with
`sq = n*n`; stop when `sq > days_in_period + 1` or when
`event_dt = start_dt + (sq - 1) days` reaches `end_dt`; the `while True`
loop is given explicit fuel. -/
def squareEventsAux (startD endD : ℚ) (daysInPeriod : ℤ) : ℕ → ℕ → List ProgressEvent
  | 0, _ => []
  | fuel + 1, n =>
    if ((n * n : ℕ) : ℤ) > daysInPeriod + 1 then []
    else if endD ≤ startD + (((n * n : ℕ) : ℚ) - 1) then []
    else ⟨"year_progress_square", n * n, startD + (((n * n : ℕ) : ℚ) - 1)⟩
      :: squareEventsAux startD endD daysInPeriod fuel (n + 1)

/-- The helper `generate_progress_events(year, start_dt, end_dt, ...)`
(year_progress.py lines 5-64): the fifteen 1/16th events followed by the
square-day events; `days_in_period = (end_dt - start_dt).days` is the
floor of the day difference. -/
def generate_progress_events (startD endD : ℚ) : List ProgressEvent :=
  fractionEvents startD endD
    ++ squareEventsAux startD endD (Rat.floor (endD - startD))
        ((Rat.floor (endD - startD)).toNat + 2) 1

/-- The function `get_calendar_year_events(year_start, year_end)` (year_progress.py
lines 66-84): one run of `generate_progress_events` per calendar year,
from January 1 of the year to January 1 of the next. -/
def get_calendar_year_events (ys ye : ℤ) : List ProgressEvent :=
  (List.range (ye - ys + 1).toNat).flatMap fun i =>
    generate_progress_events ((dateToDay (ys + i) 1 1 : ℤ) : ℚ)
      ((dateToDay (ys + i + 1) 1 1 : ℤ) : ℚ)

/-- C9: the square-day search places day `sq` at `start + (sq - 1)` days,
so the "day 64" event of the calendar year falls on 2024-03-04 in the
leap year 2024 and on 2025-03-05 in the non-leap year 2025. -/
theorem C9_square_day_placement :
    (∀ (startD endD : ℚ) (days : ℤ) (fuel n : ℕ) (e : ProgressEvent),
        e ∈ squareEventsAux startD endD days fuel n →
        e.start_time = startD + ((e.idx : ℚ) - 1))
    ∧ (get_calendar_year_events 2024 2024).filter
        (fun e => e.ptype == "year_progress_square" && e.idx == 64)
      = [⟨"year_progress_square", 64, ((dateToDay 2024 3 4 : ℤ) : ℚ)⟩]
    ∧ (get_calendar_year_events 2025 2025).filter
        (fun e => e.ptype == "year_progress_square" && e.idx == 64)
      = [⟨"year_progress_square", 64, ((dateToDay 2025 3 5 : ℤ) : ℚ)⟩] := by
  refine ⟨?_, by decide, by decide⟩
  intro startD endD days fuel
  induction fuel with
  | zero => intro n e he; simp [squareEventsAux] at he
  | succ fuel ih =>
    intro n e he
    rw [squareEventsAux] at he
    split_ifs at he with h1 h2
    · simp at he
    · simp at he
    · rcases List.mem_cons.mp he with rfl | hmem
      · rfl
      · exact ih (n + 1) e hmem

/-- Witness for C9: the general placement applied to the day-1 event of
a concrete run. -/
theorem C9_square_day_placement_witness :
    (0 : ℚ) = 0 + (((1 : ℕ) : ℚ) - 1) := by
  have h := C9_square_day_placement.1 0 16 16 18 1 ⟨"year_progress_square", 1, 0⟩ (by decide)
  exact h

theorem squareEventsAux_bounds (startD endD : ℚ) (days : ℤ) :
    ∀ (fuel n : ℕ) (e : ProgressEvent), 1 ≤ n →
      e ∈ squareEventsAux startD endD days fuel n →
      startD ≤ e.start_time ∧ e.start_time < endD := by
  intro fuel
  induction fuel with
  | zero => intro n e _ he; simp [squareEventsAux] at he
  | succ fuel ih =>
    intro n e hn he
    rw [squareEventsAux] at he
    split_ifs at he with h1 h2
    · simp at he
    · simp at he
    · rcases List.mem_cons.mp he with rfl | hmem
      · constructor
        · have hsq : 1 ≤ n * n := Nat.one_le_iff_ne_zero.2 (Nat.mul_ne_zero
            (Nat.one_le_iff_ne_zero.1 hn) (Nat.one_le_iff_ne_zero.1 hn))
          have hq : (1 : ℚ) ≤ ((n * n : ℕ) : ℚ) := by exact_mod_cast hsq
          show startD ≤ startD + (((n * n : ℕ) : ℚ) - 1)
          linarith
        · exact not_le.mp h2
      · exact ih (n + 1) e (by omega) hmem

/-- C10: on any interval `start_dt < end_dt`, every event of
`generate_progress_events` satisfies `start_dt ≤ start_time < end_dt`
(square-day events in particular end strictly before `end_dt`), the
fifteen 1/16th events have strictly increasing times, and there are
exactly fifteen of them. -/
theorem C10_progress_event_bounds (startD endD : ℚ) (h : startD < endD) :
    (∀ e ∈ generate_progress_events startD endD,
        startD ≤ e.start_time ∧ e.start_time < endD)
    ∧ List.Chain' (· < ·) ((fractionEvents startD endD).map ProgressEvent.start_time)
    ∧ (fractionEvents startD endD).length = 15 := by
  refine ⟨?_, ?_, by simp [fractionEvents]⟩
  · intro e he
    rw [generate_progress_events, List.mem_append] at he
    rcases he with hf | hs
    · rw [fractionEvents, List.mem_map] at hf
      obtain ⟨k, hk, rfl⟩ := hf
      rw [List.mem_range'_1] at hk
      have hk1 : (1 : ℚ) ≤ (k : ℚ) := by exact_mod_cast hk.1
      have hk16 : (k : ℚ) < 16 := by exact_mod_cast hk.2
      constructor
      · show startD ≤ startD + (endD - startD) * ((k : ℚ) / 16)
        nlinarith
      · show startD + (endD - startD) * ((k : ℚ) / 16) < endD
        nlinarith
    · exact squareEventsAux_bounds startD endD _ _ 1 e le_rfl hs
  · rw [fractionEvents,
      show List.range' 1 15 = [1, 2, 3, 4, 5, 6, 7, 8, 9, 10, 11, 12, 13, 14, 15] from rfl]
    simp only [List.map_cons, List.map_nil, List.chain'_cons, List.chain'_singleton, and_true]
    repeat' apply And.intro
    all_goals (push_cast; linarith)

/-- Witness for C10: the fifteen-fraction count at a concrete interval. -/
theorem C10_progress_event_bounds_witness :
    (fractionEvents 0 16).length = 15 ∧ (0 : ℚ) < 16 :=
  ⟨(C10_progress_event_bounds 0 16 (by norm_num)).2.2, by norm_num⟩
